import Mathlib

/-!
Verification development for the MQTT-to-InfluxDB forwarder
(`forwarder.py`).  The Python program is shallowly embedded: strings are
lists of characters, the Python object heap holding mutable sink lists is
an explicit `Heap`, exceptions are an explicit `PyExc` value, and the
MQTT/InfluxDB network boundary is abstracted into an outcome parameter
describing what the external write would do.

The embedding is translated line by line from `forwarder.py`; each
definition's doc comment names the source lines it embeds.  Characters
are treated abstractly (the Python-2 corner where a non-ASCII byte topic
raises a `UnicodeDecodeError` when matched against a unicode pattern is
outside the model; all inputs exercised here are ASCII).
-/

set_option autoImplicit false

namespace Forwarder

/-- Decidable equality for `Except`, used to evaluate the embedded
fallible operations on concrete inputs. -/
instance instDecEqExcept {α β : Type} [DecidableEq α] [DecidableEq β] :
    DecidableEq (Except α β) := fun x y =>
  match x, y with
  | Except.error a, Except.error b =>
    if h : a = b then Decidable.isTrue (by rw [h])
    else Decidable.isFalse (fun hh => by cases hh; exact h rfl)
  | Except.error _, Except.ok _ => Decidable.isFalse (fun hh => by cases hh)
  | Except.ok _, Except.error _ => Decidable.isFalse (fun hh => by cases hh)
  | Except.ok a, Except.ok b =>
    if h : a = b then Decidable.isTrue (by rw [h])
    else Decidable.isFalse (fun hh => by cases hh; exact h rfl)

/-- Python regex word character for `\w` with no `re.UNICODE` flag:
ASCII letters, digits and underscore. -/
def isWordChar (c : Char) : Bool := c.isAlphanum || c = '_'

/-- C whitespace as accepted around a Python 2 `float(...)` literal:
space, tab, newline, carriage return, vertical tab, form feed. -/
def isPySpace (c : Char) : Bool :=
  c = ' ' || c = '\t' || c = '\n' || c = '\r' || c = '\x0b' || c = '\x0c'

/-- Python exception values the embedded code can raise or catch.
`connectionError` stands for `requests.exceptions.ConnectionError`;
`otherError` stands for any further exception class, indexed by a code. -/
inductive PyExc where
  | attributeError
  | valueError
  | connectionError
  | otherError (code : Nat)
  deriving DecidableEq

/-- Result of Python 2 `float(...)` on a string: a finite value, a
signed infinity, or nan.  A finite value is modelled exactly (before
IEEE rounding, which is irrelevant to the claims) as `m * 10 ^ e` in the
canonical form where `m` is not divisible by 10 (and `e = 0` when
`m = 0`); the canonical form makes equality of denoted values plain
structural equality.  `finiteVal` gives the rational denotation. -/
inductive PyFloat where
  | finite (m e : Int)
  | infinite (neg : Bool)
  | nan
  deriving DecidableEq

/-- Rational denotation of a finite float value `m * 10 ^ e`. -/
def finiteVal (m e : Int) : ℚ :=
  if 0 ≤ e then (m : ℚ) * (10 : ℚ) ^ e.toNat else (m : ℚ) / (10 : ℚ) ^ (-e).toNat

/-- A record value: either the coerced number or the raw string payload
(lines 81-85 of `forwarder.py`). -/
inductive Value where
  | num (x : PyFloat)
  | str (s : List Char)
  deriving DecidableEq

/-- Strip one optional leading sign, returning (isNegative, rest). -/
def splitSign : List Char → Bool × List Char
  | '+' :: r => (false, r)
  | '-' :: r => (true, r)
  | l => (false, l)

/-- Case-insensitive comparison of `l` against a lowercase reference. -/
def lowerEq (l s : List Char) : Bool := l.map Char.toLower == s

/-- Numeric value of a list of ASCII digits. -/
def natOfDigits (l : List Char) : Nat :=
  l.foldl (fun a c => 10 * a + (c.toNat - 48)) 0

/-- Drop trailing Python whitespace. -/
def dropTrailingSpaces (l : List Char) : List Char :=
  (l.reverse.dropWhile isPySpace).reverse

/-- Strip Python whitespace from both ends, as `float(...)` does. -/
def stripPySpaces (l : List Char) : List Char :=
  dropTrailingSpaces (l.dropWhile isPySpace)

/-- Exact value of the decimal literal `[-](intPart).(fracPart) * 10 ^ ex`
in canonical mantissa-exponent form: trailing zero digits move into the
exponent, and zero is `finite 0 0`. -/
def decValue (neg : Bool) (ip fp : List Char) (ex : Int) : PyFloat :=
  let digits := ip ++ fp
  let stripped := (digits.reverse.dropWhile (fun c => c == '0')).reverse
  if stripped.isEmpty then PyFloat.finite 0 0
  else
    let m : Int := (natOfDigits stripped : Int)
    let m : Int := if neg then -m else m
    let e : Int := ex - (fp.length : Int) + ((digits.length : Int) - (stripped.length : Int))
    PyFloat.finite m e

/-- Continuation of the float grammar after the `e`/`E` marker: an
optional sign followed by one or more digits, ending the string. -/
def expCont (neg : Bool) (ip fp r : List Char) : Option PyFloat :=
  let sb := splitSign r
  let edig := sb.2.takeWhile Char.isDigit
  let r3 := sb.2.dropWhile Char.isDigit
  if edig.isEmpty || !r3.isEmpty then none
  else
    let e : Int := if sb.1 then -(natOfDigits edig : Int) else (natOfDigits edig : Int)
    some (decValue neg ip fp e)

/-- Python 2 `float(payload)` semantics (line 83 of `forwarder.py`):
optional surrounding whitespace, optional sign, then `inf`, `infinity`
or `nan` case-insensitively, or a decimal literal `digits [. digits]`
(at least one digit overall) with an optional exponent.  `none` models
`ValueError`. -/
def pyFloatOfChars (l : List Char) : Option PyFloat :=
  let t := stripPySpaces l
  let sb := splitSign t
  let neg := sb.1
  let body := sb.2
  if lowerEq body ['i', 'n', 'f'] || lowerEq body ['i', 'n', 'f', 'i', 'n', 'i', 't', 'y'] then
    some (PyFloat.infinite neg)
  else if lowerEq body ['n', 'a', 'n'] then
    some PyFloat.nan
  else
    let intPart := body.takeWhile Char.isDigit
    let r1 := body.dropWhile Char.isDigit
    let fr : List Char × List Char :=
      match r1 with
      | '.' :: r => (r.takeWhile Char.isDigit, r.dropWhile Char.isDigit)
      | _ => ([], r1)
    let fracPart := fr.1
    let r2 := fr.2
    if intPart.isEmpty && fracPart.isEmpty then none
    else
      match r2 with
      | [] => some (decValue neg intPart fracPart 0)
      | 'e' :: r => expCont neg intPart fracPart r
      | 'E' :: r => expCont neg intPart fracPart r
      | _ => none

/-- Lines 81-85 of `forwarder.py`:
`value = msg.payload; try: value = float(value) except ValueError: pass`. -/
def coerceValue (payload : List Char) : Value :=
  match pyFloatOfChars payload with
  | some x => Value.num x
  | none => Value.str payload

/-- Lines 76-77 of `forwarder.py`: the compiled pattern
`/(?P<node_name>\w+)/(?P<measurement_name>\w+)/?` applied with
`regex.match`, i.e. anchored at the start of the topic only (a prefix
match).  Returns the two named groups on success.  Greedy `\w+` with the
mandatory `/` separator makes backtracking irrelevant: each group is the
maximal word-character run. -/
def topicMatch (t : List Char) : Option (List Char × List Char) :=
  match t with
  | [] => none
  | c :: rest =>
    if c = '/' then
      let node := rest.takeWhile isWordChar
      let r1 := rest.dropWhile isWordChar
      if node.isEmpty then none
      else
        match r1 with
        | [] => none
        | c2 :: r2 =>
          if c2 = '/' then
            let meas := r2.takeWhile isWordChar
            if meas.isEmpty then none else some (node, meas)
          else none
    else none

/-- A sink object is identified by a number; the registration list holds
these identities (Python stores references, so duplicates are possible). -/
abbrev SinkId := Nat

/-- The decoded (node, measurement, value) triple of one message. -/
abbrev Record := List Char × List Char × Value

/-- One `store_msg` invocation: which sink received which record. -/
abbrev Invocation := SinkId × Record

/-- The Python heap restricted to what the program mutates: list objects
holding sink references.  A reference is an index into `cells`. -/
structure Heap where
  cells : List (List SinkId)
  deriving DecidableEq

/-- Dereference a list object. -/
def Heap.read (h : Heap) (r : Nat) : List SinkId := h.cells.getD r []

/-- In-place update of a list object (`.append`, slice assignment, ...). -/
def Heap.write (h : Heap) (r : Nat) (v : List SinkId) : Heap :=
  ⟨h.cells.set r v⟩

/-- Allocate a fresh list object, as `[]` or `list(...)` does. -/
def Heap.alloc (h : Heap) (v : List SinkId) : Heap × Nat :=
  (⟨h.cells ++ [v]⟩, h.cells.length)

/-- The `MQTTSource` object state: the configured node names
(`self.node_names`, line 60) and the `_stores` attribute, which is
absent (`none`) until the first `register_store` call (lines 43-46).
`__init__` (lines 57-61) does not create `_stores`. -/
structure MQTTSource where
  node_names : List (List Char)
  stores_attr : Option Nat
  deriving DecidableEq

/-- Lines 57-61 of `forwarder.py`: `__init__` sets `node_names` but
never `_stores`. -/
def mkMQTTSource (names : List (List Char)) : MQTTSource :=
  ⟨names, none⟩

/-- Lines 43-46 of `forwarder.py`:
`if not hasattr(self, '_stores'): self._stores = []` then
`self._stores.append(store)`. -/
def register_store (h : Heap) (src : MQTTSource) (s : SinkId) : Heap × MQTTSource :=
  match src.stores_attr with
  | none =>
    let hr := h.alloc []
    (hr.1.write hr.2 (hr.1.read hr.2 ++ [s]), ⟨src.node_names, some hr.2⟩)
  | some r => (h.write r (h.read r ++ [s]), src)

/-- Lines 48-51 of `forwarder.py`: the `stores` property,
`return list(self._stores)` — a fresh copy of the registration list.
Reading `self._stores` when the attribute was never created raises
`AttributeError`. -/
def stores (h : Heap) (src : MQTTSource) : Except PyExc (Heap × Nat) :=
  match src.stores_attr with
  | none => Except.error PyExc.attributeError
  | some r => Except.ok (h.alloc (h.read r))

/-- Lines 90-91 of `forwarder.py`: `for store in self.stores:
store.store_msg(node_name, measurement_name, value)`.  `beh s` is the
exception escaping sink `s`'s `store_msg` call (`none` = returns
normally).  Returns the invocations that happened, in order, and the
exception that aborted the loop, if any — the loop body has no
try/except, so a raising sink stops the iteration. -/
def dispatchLoop : List SinkId → (SinkId → Option PyExc) → Record →
    List Invocation × Option PyExc
  | [], _, _ => ([], none)
  | s :: rest, beh, r =>
    match beh s with
    | some e => ([(s, r)], some e)
    | none =>
      let p := dispatchLoop rest beh r
      ((s, r) :: p.1, p.2)

/-- Lines 74-91 of `forwarder.py`, the `on_message` callback.
Returns the sink invocations performed and the exception escaping the
callback, if any.
* Lines 76-80: prefix-match the topic; on failure warn and return.
* Lines 81-85: coerce the payload.
* Lines 86-88: if the parsed node name is not among
  `self.node_names`, the warning call evaluates `self.node_name` — an
  attribute `__init__` never created — so an `AttributeError` is raised
  before any sink is reached.
* Lines 90-91: read the `stores` property (which raises
  `AttributeError` if `register_store` was never called) and invoke
  each sink in order. -/
def on_message (h : Heap) (src : MQTTSource) (beh : SinkId → Option PyExc)
    (topic payload : List Char) : List Invocation × Option PyExc :=
  match topicMatch topic with
  | none => ([], none)
  | some (node, meas) =>
    let value := coerceValue payload
    if node ∈ src.node_names then
      match stores h src with
      | Except.error e => ([], some e)
      | Except.ok hr => dispatchLoop (hr.1.read hr.2) beh (node, meas, value)
    else ([], some PyExc.attributeError)

/-- The InfluxDB point dictionary built at lines 26-34 of
`forwarder.py`: keys `measurement`, `tags` (one tag `sensor_node`),
`fields` (one field `value`); no `time` key is supplied. -/
structure InfluxPoint where
  measurement : List Char
  tags : List (List Char × List Char)
  fields : List (List Char × Value)
  time : Option Int
  deriving DecidableEq

/-- Lines 26-34 of `forwarder.py`: construction of `influx_msg`. -/
def influx_msg (node_name measurement_name : List Char) (value : Value) : InfluxPoint :=
  ⟨measurement_name, [("sensor_node".toList, node_name)],
    [("value".toList, value)], none⟩

/-- Lines 25-39 of `forwarder.py`: `InfluxStore.store_msg`.  `w` is what
the external `write_points([influx_msg])` call does: `none` = succeeds,
`some e` = raises `e`.  The `except requests.exceptions.ConnectionError`
clause catches exactly `connectionError` (logging it); every other
exception propagates.  The result is the list of points written
(`[]` when the point was discarded). -/
def influxStoreMsg (node_name measurement_name : List Char) (value : Value)
    (w : Option PyExc) : Except PyExc (List InfluxPoint) :=
  let msg := influx_msg node_name measurement_name value
  match w with
  | none => Except.ok [msg]
  | some PyExc.connectionError => Except.ok []
  | some e => Except.error e

/-- The exception escaping an `InfluxStore` sink's `store_msg` call when
its `write_points` call would do `w s`: a `connectionError` is swallowed
inside `store_msg`, everything else escapes.  This is the `beh`
parameter of `dispatchLoop` induced by a fleet of `InfluxStore` sinks. -/
def influxEscape (w : SinkId → Option PyExc) (s : SinkId) : Option PyExc :=
  match w s with
  | none => none
  | some PyExc.connectionError => none
  | some e => some e

/-- A fleet of sinks that all return normally. -/
def behNone : SinkId → Option PyExc := fun _ => none

/-- The full anchored topic shape named by the specification:
`/<node>/<measurement>` or `/<node>/<measurement>/<anything>` with node
and measurement nonempty word-character runs.  This follows the spec's
words (an anchored `/(\w+)/(\w+)(/.*)?` that must consume the whole
topic) and is compared against `topicMatch`, which the code anchors at
the start only. -/
def specTopicShape (t : List Char) : Bool :=
  match t with
  | '/' :: rest =>
    let node := rest.takeWhile isWordChar
    let r1 := rest.dropWhile isWordChar
    !node.isEmpty &&
      (match r1 with
      | '/' :: r2 =>
        let meas := r2.takeWhile isWordChar
        let r3 := r2.dropWhile isWordChar
        !meas.isEmpty && (r3.isEmpty || r3.headD ' ' = '/')
      | _ => false)
  | _ => false

/-! ## Helper lemmas -/

/-- A predicate true on every element takes the whole list. -/
lemma takeWhile_all (p : Char → Bool) (l : List Char) (hl : ∀ c ∈ l, p c = true) :
    l.takeWhile p = l := by
  induction l with
  | nil => rfl
  | cons c l ih =>
    have hc : p c = true := hl c (by simp)
    have ih2 := ih (fun x hx => hl x (by simp [hx]))
    simp [List.takeWhile_cons, hc, ih2]

/-- `takeWhile` stops exactly at the first failing element. -/
lemma takeWhile_append_not (p : Char → Bool) (l : List Char) (c : Char) (r : List Char)
    (hl : ∀ x ∈ l, p x = true) (hc : p c = false) :
    (l ++ c :: r).takeWhile p = l := by
  induction l with
  | nil => simp [List.takeWhile_cons, hc]
  | cons a l ih =>
    have ha : p a = true := hl a (by simp)
    have ih2 := ih (fun x hx => hl x (by simp [hx]))
    simp [List.takeWhile_cons, ha, ih2]

/-- `dropWhile` drops exactly up to the first failing element. -/
lemma dropWhile_append_not (p : Char → Bool) (l : List Char) (c : Char) (r : List Char)
    (hl : ∀ x ∈ l, p x = true) (hc : p c = false) :
    (l ++ c :: r).dropWhile p = c :: r := by
  induction l with
  | nil => simp [List.dropWhile_cons, hc]
  | cons a l ih =>
    have ha : p a = true := hl a (by simp)
    have ih2 := ih (fun x hx => hl x (by simp [hx]))
    simp [List.dropWhile_cons, ha, ih2]

/-- Reading the cell a fresh allocation returned gives the allocated value. -/
lemma getD_append_length {α : Type} (l : List α) (v d : α) :
    (l ++ [v]).getD l.length d = v := by
  induction l with
  | nil => rfl
  | cons a l ih => simp [List.getD]

/-- Appending a cell does not change earlier cells. -/
lemma getD_append_lt {α : Type} (l : List α) (v d : α) (r : Nat) (h : r < l.length) :
    (l ++ [v]).getD r d = l.getD r d := by
  induction l generalizing r with
  | nil => exact absurd h (by simp)
  | cons a l ih =>
    cases r with
    | zero => rfl
    | succ r => simpa [List.getD] using ih r (by simpa using h)

/-- Setting one cell does not change a different cell. -/
lemma getD_set_ne {α : Type} (l : List α) (i j : Nat) (v d : α) (hne : i ≠ j) :
    (l.set i v).getD j d = l.getD j d := by
  induction l generalizing i j with
  | nil => rfl
  | cons a l ih =>
    cases i with
    | zero =>
      cases j with
      | zero => exact absurd rfl hne
      | succ j => rfl
    | succ i =>
      cases j with
      | zero => rfl
      | succ j => simpa [List.getD] using ih i j (fun hh => hne (by rw [hh]))

/-- Setting a valid cell then reading it back gives the new value. -/
lemma getD_set_self {α : Type} (l : List α) (i : Nat) (v d : α) (h : i < l.length) :
    (l.set i v).getD i d = v := by
  induction l generalizing i with
  | nil => exact absurd h (by simp)
  | cons a l ih =>
    cases i with
    | zero => rfl
    | succ i => simpa [List.getD] using ih i (by simpa using h)

/-- Heap-level form of `getD_append_length`. -/
lemma Heap.read_alloc_self (h : Heap) (v : List SinkId) :
    (h.alloc v).1.read (h.alloc v).2 = v :=
  getD_append_length h.cells v []

/-- Heap-level form of `getD_append_lt`. -/
lemma Heap.read_alloc_lt (h : Heap) (v : List SinkId) (r : Nat) (hr : r < h.cells.length) :
    (h.alloc v).1.read r = h.read r :=
  getD_append_lt h.cells v [] r hr

/-- Heap-level form of `getD_set_ne`. -/
lemma Heap.read_write_ne (h : Heap) (r r' : Nat) (v : List SinkId) (hne : r ≠ r') :
    (h.write r v).read r' = h.read r' :=
  getD_set_ne h.cells r r' v [] hne

/-- Heap-level form of `getD_set_self`. -/
lemma Heap.read_write_self (h : Heap) (r : Nat) (v : List SinkId) (hr : r < h.cells.length) :
    (h.write r v).read r = v :=
  getD_set_self h.cells r v [] hr

/-- When every sink returns normally, the dispatch loop invokes each
registered sink once, in order, with the same record, and no exception
escapes. -/
lemma dispatchLoop_all_ok (sinks : List SinkId) (beh : SinkId → Option PyExc) (rec : Record)
    (hb : ∀ s ∈ sinks, beh s = none) :
    dispatchLoop sinks beh rec = (sinks.map (fun s => (s, rec)), none) := by
  induction sinks with
  | nil => rfl
  | cons s rest ih =>
    have hs : beh s = none := hb s (by simp)
    have ih2 := ih (fun x hx => hb x (by simp [hx]))
    simp [dispatchLoop, hs, ih2]

/-- Every invocation the dispatch loop performs carries the same record. -/
lemma dispatchLoop_mem_record (sinks : List SinkId) (beh : SinkId → Option PyExc) (rec : Record) :
    ∀ p ∈ (dispatchLoop sinks beh rec).1, p.2 = rec := by
  induction sinks with
  | nil => intro p hp; simp [dispatchLoop] at hp
  | cons s rest ih =>
    intro p hp
    unfold dispatchLoop at hp
    cases hbs : beh s with
    | some e => rw [hbs] at hp; simp at hp; rw [hp]
    | none =>
      rw [hbs] at hp
      simp at hp
      rcases hp with hp | hp
      · rw [hp]
      · exact ih p hp

/-- A topic the regex rejects produces no invocation and no exception. -/
lemma on_message_parse_none (h : Heap) (src : MQTTSource) (beh : SinkId → Option PyExc)
    (topic payload : List Char) (hp : topicMatch topic = none) :
    on_message h src beh topic payload = ([], none) := by
  simp [on_message, hp]

/-- The successful path of `on_message`: topic parsed, node configured,
`_stores` present — the result is the dispatch loop over the current
registration list. -/
lemma on_message_run (h : Heap) (src : MQTTSource) (r₀ : Nat) (beh : SinkId → Option PyExc)
    (topic payload node meas : List Char)
    (hattr : src.stores_attr = some r₀) (hp : topicMatch topic = some (node, meas))
    (hm : node ∈ src.node_names) :
    on_message h src beh topic payload
      = dispatchLoop (h.read r₀) beh (node, meas, coerceValue payload) := by
  simp [on_message, hp, hm, stores, hattr, Heap.read_alloc_self]

/-- A parsed node name outside the configured set: line 88 evaluates the
absent `self.node_name` attribute, so `on_message` raises
`AttributeError` with no invocation. -/
lemma on_message_bad_node (h : Heap) (src : MQTTSource) (beh : SinkId → Option PyExc)
    (topic payload node meas : List Char)
    (hp : topicMatch topic = some (node, meas)) (hm : node ∉ src.node_names) :
    on_message h src beh topic payload = ([], some PyExc.attributeError) := by
  simp [on_message, hp, hm]

/-- Dispatch reached with `_stores` never created: the `stores` property
raises `AttributeError` with no invocation. -/
lemma on_message_no_attr (h : Heap) (src : MQTTSource) (beh : SinkId → Option PyExc)
    (topic payload node meas : List Char)
    (hp : topicMatch topic = some (node, meas)) (hm : node ∈ src.node_names)
    (hattr : src.stores_attr = none) :
    on_message h src beh topic payload = ([], some PyExc.attributeError) := by
  simp [on_message, hp, hm, stores, hattr]

/-- `on_message` reads the heap only through the registration cell. -/
lemma on_message_heap_congr (h h' : Heap) (src : MQTTSource) (r₀ : Nat)
    (beh : SinkId → Option PyExc) (topic payload : List Char)
    (hattr : src.stores_attr = some r₀) (hread : h.read r₀ = h'.read r₀) :
    on_message h src beh topic payload = on_message h' src beh topic payload := by
  cases hp : topicMatch topic with
  | none =>
    rw [on_message_parse_none h src beh topic payload hp,
      on_message_parse_none h' src beh topic payload hp]
  | some nm =>
    obtain ⟨node, meas⟩ := nm
    by_cases hm : node ∈ src.node_names
    · rw [on_message_run h src r₀ beh topic payload node meas hattr hp hm,
        on_message_run h' src r₀ beh topic payload node meas hattr hp hm, hread]
    · simp [on_message, hp, hm]

/-- Every record `on_message` delivers is built from the two extracted
topic groups and the coerced payload. -/
lemma on_message_record (h : Heap) (src : MQTTSource) (beh : SinkId → Option PyExc)
    (topic payload node meas : List Char) (hp : topicMatch topic = some (node, meas)) :
    ∀ inv ∈ (on_message h src beh topic payload).1,
      inv.2 = (node, meas, coerceValue payload) := by
  intro inv hinv
  by_cases hm : node ∈ src.node_names
  · cases hattr : src.stores_attr with
    | none =>
      rw [on_message_no_attr h src beh topic payload node meas hp hm hattr] at hinv
      simp at hinv
    | some r₀ =>
      rw [on_message_run h src r₀ beh topic payload node meas hattr hp hm] at hinv
      exact dispatchLoop_mem_record (h.read r₀) beh
        (node, meas, coerceValue payload) inv hinv
  · rw [on_message_bad_node h src beh topic payload node meas hp hm] at hinv
    simp at hinv

/-- Every value delivered by `on_message` is the coerced payload. -/
lemma on_message_value (h : Heap) (src : MQTTSource) (beh : SinkId → Option PyExc)
    (topic payload : List Char) :
    ∀ inv ∈ (on_message h src beh topic payload).1, inv.2.2.2 = coerceValue payload := by
  intro inv hinv
  cases hp : topicMatch topic with
  | none =>
    rw [on_message_parse_none h src beh topic payload hp] at hinv
    simp at hinv
  | some nm =>
    obtain ⟨node, meas⟩ := nm
    have h2 := on_message_record h src beh topic payload node meas hp inv hinv
    rw [h2]

/-! ## Claim theorems -/

/-- C1 (amended): for every topic of the shape `/<node>/<measurement>`
or `/<node>/<measurement>/<anything starting with a slash>` with node
and measurement nonempty word-character runs, the match extracts exactly
the node and the measurement; and for every topic on which the
(start-anchored) match fails, `on_message` produces no record and
invokes no sink.  (As stated the claim is false: `regex.match` is a
prefix match, so a topic outside the shape such as `/abc/def!x` still
produces a record — see the counterexample.) -/
theorem claim1_topic_parsing :
    (∀ n m rest : List Char, n ≠ [] → m ≠ [] →
      (∀ c ∈ n, isWordChar c = true) → (∀ c ∈ m, isWordChar c = true) →
      (rest = [] ∨ ∃ r2, rest = '/' :: r2) →
      topicMatch ('/' :: (n ++ ('/' :: (m ++ rest)))) = some (n, m)) ∧
    (∀ (h : Heap) (src : MQTTSource) (beh : SinkId → Option PyExc)
      (topic payload node meas : List Char),
      topicMatch topic = some (node, meas) →
      ∀ inv ∈ (on_message h src beh topic payload).1,
        inv.2.1 = node ∧ inv.2.2.1 = meas) ∧
    (∀ (t payload : List Char) (h : Heap) (src : MQTTSource) (beh : SinkId → Option PyExc),
      topicMatch t = none → on_message h src beh t payload = ([], none)) := by
  refine ⟨?_, ?_, ?_⟩
  · intro n m rest hn0 hm0 hwn hwm hrest
    have hw : isWordChar '/' = false := by decide
    have hne : n.isEmpty = false := by
      cases n with
      | nil => exact absurd rfl hn0
      | cons a l => rfl
    have hme : m.isEmpty = false := by
      cases m with
      | nil => exact absurd rfl hm0
      | cons a l => rfl
    rcases hrest with rfl | ⟨r2, rfl⟩
    · simp [topicMatch, takeWhile_append_not isWordChar n '/' m hwn hw,
        dropWhile_append_not isWordChar n '/' m hwn hw,
        takeWhile_all isWordChar m hwm, hne, hme]
    · simp [topicMatch, takeWhile_append_not isWordChar n '/' (m ++ '/' :: r2) hwn hw,
        dropWhile_append_not isWordChar n '/' (m ++ '/' :: r2) hwn hw,
        takeWhile_append_not isWordChar m '/' r2 hwm hw, hne, hme]
  · intro h src beh topic payload node meas hp inv hinv
    have h2 := on_message_record h src beh topic payload node meas hp inv hinv
    rw [h2]
    exact ⟨rfl, rfl⟩
  · intro t payload h src beh hp
    exact on_message_parse_none h src beh t payload hp

/-- C1 witness: the theorem applied at concrete inputs. -/
theorem claim1_witness :
    topicMatch ('/' :: (['a', 'b'] ++ ('/' :: (['c', 'd'] ++ ['/', '!'])))) = some (['a', 'b'], ['c', 'd']) ∧
    (((0 : SinkId), (['a'], ['t'], Value.str ['x'])) : Invocation).2.1 = ['a'] ∧
    (((0 : SinkId), (['a'], ['t'], Value.str ['x'])) : Invocation).2.2.1 = ['t'] ∧
    on_message ⟨[[0]]⟩ (mkMQTTSource []) behNone ['x'] [] = ([], none) := by
  refine ⟨claim1_topic_parsing.1 ['a', 'b'] ['c', 'd'] ['/', '!'] (by decide) (by decide)
      (by decide) (by decide) (Or.inr ⟨['!'], rfl⟩), ?_, ?_,
    claim1_topic_parsing.2.2 ['x'] [] ⟨[[0]]⟩ (mkMQTTSource []) behNone (by decide)⟩
  · exact (claim1_topic_parsing.2.1 ⟨[[0]]⟩ ⟨[['a']], some 0⟩ behNone
      ['/', 'a', '/', 't'] ['x'] ['a'] ['t'] (by decide) _ (by decide)).1
  · exact (claim1_topic_parsing.2.1 ⟨[[0]]⟩ ⟨[['a']], some 0⟩ behNone
      ['/', 'a', '/', 't'] ['x'] ['a'] ['t'] (by decide) _ (by decide)).2

/-- C1 counterexample: `/abc/def!x` is outside the claimed topic shape,
yet `on_message` produces a record from it and invokes the registered
sink — the claim's "no record and no sink invocation" half is false as
stated. -/
theorem claim1_counterexample :
    specTopicShape "/abc/def!x".toList = false ∧
    on_message ⟨[[0]]⟩ ⟨["abc".toList], some 0⟩ behNone "/abc/def!x".toList "1".toList
      = ([(0, "abc".toList, "def".toList, Value.num (PyFloat.finite 1 0))], none) := by
  exact ⟨by decide, by decide⟩

/-- C2: the claim says a successfully parsed message with an
unconfigured node name is warned about and still forwarded.  The code
instead evaluates `self.node_name` — an attribute that is never set —
inside the warning call, so `on_message` raises `AttributeError` and no
sink is invoked.  Evaluated at the spec's own scenario: configured
nodes `living-room`, topic `/kitchen/temperature`, payload `19.0`. -/
theorem claim2_attribute_error :
    on_message ⟨[[0]]⟩ ⟨["living-room".toList], some 0⟩ behNone
      "/kitchen/temperature".toList "19.0".toList
      = ([], some PyExc.attributeError) := by
  decide

/-- C3 counterexample: the spec's scenario uses node name
`living-room`, but `-` is not a word character, so the topic
`/living-room/temperature` fails the match and is dropped — no sink
invocation at all, refuting the claimed single `store` call. -/
theorem claim3_counterexample :
    on_message ⟨[[0]]⟩ ⟨["living-room".toList], some 0⟩ behNone
      "/living-room/temperature".toList "21.5".toList = ([], none) := by
  decide

/-- C3 (amended): with a node name made of word characters
(`living_room`), the end-to-end scenario holds: exactly one invocation
of the registered sink with the parsed names and the float value 21.5
(canonically `215 * 10 ^ -1`, whose rational denotation is 43/2). -/
theorem claim3_end_to_end :
    on_message ⟨[[0]]⟩ ⟨["living_room".toList], some 0⟩ behNone
      "/living_room/temperature".toList "21.5".toList
      = ([(0, "living_room".toList, "temperature".toList,
          Value.num (PyFloat.finite 215 (-1)))], none) ∧
    finiteVal 215 (-1) = 43 / 2 := by
  refine ⟨by decide, ?_⟩
  norm_num [finiteVal]

/-- C4 (amended): when the parsed node name is among the configured
node names (otherwise line 88 raises `AttributeError` before any sink
is reached — see the counterexample) and every registered sink's
`store_msg` returns normally (a raising sink aborts the loop),
dispatching one parsed message invokes each registered sink exactly
once, in registration order, all with the identical record; a sink
registered twice therefore receives the record twice. -/
theorem claim4_fanout (h : Heap) (src : MQTTSource) (r₀ : Nat)
    (beh : SinkId → Option PyExc) (topic payload node meas : List Char)
    (hattr : src.stores_attr = some r₀)
    (hp : topicMatch topic = some (node, meas))
    (hm : node ∈ src.node_names)
    (hbeh : ∀ s ∈ h.read r₀, beh s = none) :
    on_message h src beh topic payload
      = ((h.read r₀).map (fun s => (s, node, meas, coerceValue payload)), none) := by
  rw [on_message_run h src r₀ beh topic payload node meas hattr hp hm]
  exact dispatchLoop_all_ok (h.read r₀) beh (node, meas, coerceValue payload) hbeh

/-- C4 witness: two registrations of the same sink receive the record
twice, in order. -/
theorem claim4_witness :
    on_message ⟨[[5, 5]]⟩ ⟨["a".toList], some 0⟩ behNone "/a/t".toList "x".toList
      = ([(5, "a".toList, "t".toList, Value.str "x".toList),
          (5, "a".toList, "t".toList, Value.str "x".toList)], none) :=
  (claim4_fanout ⟨[[5, 5]]⟩ ⟨["a".toList], some 0⟩ 0 behNone "/a/t".toList "x".toList
    "a".toList "t".toList rfl (by decide) (by decide) (by decide)).trans (by decide)

/-- C4 counterexample: one sink is registered and the topic `/b/c`
parses, yet zero store invocations happen, because the parsed node `b`
is not among the configured nodes and line 88 raises `AttributeError` —
refuting "every message whose topic parses causes exactly N
invocations". -/
theorem claim4_counterexample :
    topicMatch "/b/c".toList = some ("b".toList, "c".toList) ∧
    on_message ⟨[[0]]⟩ ⟨["a".toList], some 0⟩ behNone "/b/c".toList "1".toList
      = ([], some PyExc.attributeError) := by
  exact ⟨by decide, by decide⟩

/-- C5: a payload accepted by the implementation's float parse is
delivered as that number, never as a string; any other payload is
delivered as the raw string unchanged; and every value a sink receives
is exactly this coercion of the payload. -/
theorem claim5_value_coercion :
    (∀ (payload : List Char) (x : PyFloat), pyFloatOfChars payload = some x →
      coerceValue payload = Value.num x) ∧
    (∀ payload : List Char, pyFloatOfChars payload = none →
      coerceValue payload = Value.str payload) ∧
    (∀ (h : Heap) (src : MQTTSource) (beh : SinkId → Option PyExc)
      (topic payload : List Char) (inv : Invocation),
      inv ∈ (on_message h src beh topic payload).1 →
      inv.2.2.2 = coerceValue payload) := by
  refine ⟨?_, ?_, ?_⟩
  · intro payload x hx
    unfold coerceValue
    rw [hx]
  · intro payload hx
    unfold coerceValue
    rw [hx]
  · intro h src beh topic payload inv hinv
    exact on_message_value h src beh topic payload inv hinv

/-- C5 witness: exponential notation and surrounding whitespace parse
(` 2e1 ` is the number 20), a non-numeric payload stays a string, and a
delivered invocation carries the coerced value. -/
theorem claim5_witness :
    pyFloatOfChars (' ' :: ['2', 'e', '1', ' ']) = some (PyFloat.finite 2 1) ∧
    coerceValue (' ' :: ['2', 'e', '1', ' ']) = Value.num (PyFloat.finite 2 1) ∧
    pyFloatOfChars ['o', 'k'] = none ∧
    coerceValue ['o', 'k'] = Value.str ['o', 'k'] ∧
    (((0 : SinkId), ("a".toList, "t".toList, Value.str "x".toList)) : Invocation).2.2.2
      = coerceValue "x".toList := by
  refine ⟨by decide, claim5_value_coercion.1 (' ' :: ['2', 'e', '1', ' '])
      (PyFloat.finite 2 1) (by decide), by decide,
    claim5_value_coercion.2.1 ['o', 'k'] (by decide), ?_⟩
  exact claim5_value_coercion.2.2 ⟨[[0]]⟩ ⟨["a".toList], some 0⟩ behNone
    "/a/t".toList "x".toList ((0 : SinkId), ("a".toList, "t".toList, Value.str "x".toList))
    (by decide)

/-- C6: in a fleet of `InfluxStore` sinks, if the failures any sinks hit
while storing are connectivity failures (caught inside `store_msg`),
every sink — in particular every later-registered one — is still
invoked with the same record, in order, and no exception escapes the
dispatch loop. -/
theorem claim6_sink_isolation (sinks : List SinkId) (w : SinkId → Option PyExc) (rec : Record)
    (hw : ∀ s ∈ sinks, w s = none ∨ w s = some PyExc.connectionError) :
    dispatchLoop sinks (influxEscape w) rec = (sinks.map (fun s => (s, rec)), none) := by
  apply dispatchLoop_all_ok
  intro s hs
  rcases hw s hs with h1 | h1 <;> simp [influxEscape, h1]

/-- A write-outcome assignment where sink 1 hits a connectivity
failure and the others succeed. -/
def connFailAtOne : SinkId → Option PyExc :=
  fun s => if s = 1 then some PyExc.connectionError else none

/-- C6 witness: sink 1 hits a connectivity failure, yet sinks 0, 1 and 2
are all invoked with the same record and the loop finishes normally. -/
theorem claim6_witness :
    dispatchLoop [0, 1, 2] (influxEscape connFailAtOne)
      ("n".toList, "m".toList, Value.num (PyFloat.finite 1 0))
      = ([(0, "n".toList, "m".toList, Value.num (PyFloat.finite 1 0)),
          (1, "n".toList, "m".toList, Value.num (PyFloat.finite 1 0)),
          (2, "n".toList, "m".toList, Value.num (PyFloat.finite 1 0))], none) :=
  (claim6_sink_isolation [0, 1, 2] connFailAtOne
    ("n".toList, "m".toList, Value.num (PyFloat.finite 1 0)) (by decide)).trans (by decide)

/-- C7: `InfluxStore.store_msg` catches a connectivity failure from the
write, returning normally with the point discarded, while every other
exception class raised by the write propagates to the caller. -/
theorem claim7_error_policy (node meas : List Char) (v : Value) (e : PyExc)
    (he : e ≠ PyExc.connectionError) :
    influxStoreMsg node meas v (some PyExc.connectionError) = Except.ok [] ∧
    influxStoreMsg node meas v (some e) = Except.error e := by
  refine ⟨rfl, ?_⟩
  cases e with
  | attributeError => rfl
  | valueError => rfl
  | connectionError => exact absurd rfl he
  | otherError code => rfl

/-- C7 witness: a `ValueError` (standing for a non-connectivity failure
such as a malformed point) propagates. -/
theorem claim7_witness :
    influxStoreMsg "n".toList "m".toList (Value.num (PyFloat.finite 1 0))
      (some PyExc.connectionError) = Except.ok [] ∧
    influxStoreMsg "n".toList "m".toList (Value.num (PyFloat.finite 1 0))
      (some PyExc.valueError) = Except.error PyExc.valueError :=
  claim7_error_policy "n".toList "m".toList (Value.num (PyFloat.finite 1 0))
    PyExc.valueError (by decide)

/-- C8: the `stores` accessor returns a fresh copy of the internal
registration list: the returned object is a different heap cell holding
the same contents, overwriting it with any value leaves the internal
cell unchanged, and a subsequent dispatch behaves exactly as it would
have on the unmutated heap. -/
theorem claim8_defensive_copy (h : Heap) (src : MQTTSource) (r₀ : Nat) (v : List SinkId)
    (beh : SinkId → Option PyExc) (topic payload : List Char)
    (hattr : src.stores_attr = some r₀) (hlt : r₀ < h.cells.length) :
    stores h src = Except.ok (h.alloc (h.read r₀)) ∧
    (h.alloc (h.read r₀)).2 ≠ r₀ ∧
    (h.alloc (h.read r₀)).1.read (h.alloc (h.read r₀)).2 = h.read r₀ ∧
    ((h.alloc (h.read r₀)).1.write (h.alloc (h.read r₀)).2 v).read r₀ = h.read r₀ ∧
    on_message ((h.alloc (h.read r₀)).1.write (h.alloc (h.read r₀)).2 v) src beh topic payload
      = on_message h src beh topic payload := by
  have hne : (h.alloc (h.read r₀)).2 ≠ r₀ := Nat.ne_of_gt hlt
  have hkeep : ((h.alloc (h.read r₀)).1.write (h.alloc (h.read r₀)).2 v).read r₀ = h.read r₀ := by
    rw [Heap.read_write_ne (h.alloc (h.read r₀)).1 (h.alloc (h.read r₀)).2 r₀ v hne]
    exact Heap.read_alloc_lt h (h.read r₀) r₀ hlt
  refine ⟨?_, hne, Heap.read_alloc_self h (h.read r₀), hkeep, ?_⟩
  · unfold stores
    rw [hattr]
  · exact on_message_heap_congr _ h src r₀ beh topic payload hattr hkeep

/-- C8 witness: one sink (7) registered in cell 0; the copy lands in
cell 1; clobbering the copy with [9] leaves cell 0 — and the dispatch
result — unchanged. -/
theorem claim8_witness :
    stores ⟨[[7]]⟩ ⟨["a".toList], some 0⟩ = Except.ok (⟨[[7], [7]]⟩, 1) ∧
    (1 : Nat) ≠ 0 ∧
    Heap.read ⟨[[7], [7]]⟩ 1 = [7] ∧
    Heap.read (Heap.write ⟨[[7], [7]]⟩ 1 [9]) 0 = [7] ∧
    on_message (Heap.write ⟨[[7], [7]]⟩ 1 [9]) ⟨["a".toList], some 0⟩ behNone
      "/a/t".toList "1".toList
      = on_message ⟨[[7]]⟩ ⟨["a".toList], some 0⟩ behNone "/a/t".toList "1".toList :=
  claim8_defensive_copy ⟨[[7]]⟩ ⟨["a".toList], some 0⟩ 0 [9] behNone
    "/a/t".toList "1".toList rfl (by decide)

/-- C9: the point written by `store_msg` is a single point whose
measurement is the measurement name, with exactly one tag
`sensor_node` carrying the node name, exactly one field `value`
carrying the value, and no point-level timestamp. -/
theorem claim9_point_shape (node meas : List Char) (v : Value) :
    influxStoreMsg node meas v none = Except.ok [influx_msg node meas v] ∧
    (influx_msg node meas v).measurement = meas ∧
    (influx_msg node meas v).tags = [("sensor_node".toList, node)] ∧
    (influx_msg node meas v).fields = [("value".toList, v)] ∧
    (influx_msg node meas v).time = none :=
  ⟨rfl, rfl, rfl, rfl, rfl⟩

/-- C10: the `_stores` list is created lazily by the first
`register_store` call; before that, reading the `stores` property — or
dispatching a message that reaches the sink loop — raises
`AttributeError` instead of yielding an empty sequence, and the first
registration creates the list holding exactly that sink. -/
theorem claim10_lazy_init (h : Heap) (names : List (List Char))
    (beh : SinkId → Option PyExc) (topic payload node meas : List Char) (s : SinkId)
    (hp : topicMatch topic = some (node, meas)) (hm : node ∈ names) :
    stores h (mkMQTTSource names) = Except.error PyExc.attributeError ∧
    on_message h (mkMQTTSource names) beh topic payload = ([], some PyExc.attributeError) ∧
    (register_store h (mkMQTTSource names) s).2.stores_attr = some h.cells.length ∧
    (register_store h (mkMQTTSource names) s).1.read h.cells.length = [s] := by
  refine ⟨rfl, ?_, rfl, ?_⟩
  · exact on_message_no_attr h (mkMQTTSource names) beh topic payload node meas hp hm rfl
  · show ((h.alloc []).1.write (h.alloc []).2 ((h.alloc []).1.read (h.alloc []).2 ++ [s])).read
      h.cells.length = [s]
    rw [Heap.read_alloc_self h []]
    exact Heap.read_write_self (h.alloc []).1 h.cells.length ([] ++ [s])
      (by simp [Heap.alloc])

/-- C10 witness: a fresh source over an empty heap. -/
theorem claim10_witness :
    stores ⟨[]⟩ (mkMQTTSource ["a".toList]) = Except.error PyExc.attributeError ∧
    on_message ⟨[]⟩ (mkMQTTSource ["a".toList]) behNone "/a/b".toList "1".toList
      = ([], some PyExc.attributeError) ∧
    (register_store ⟨[]⟩ (mkMQTTSource ["a".toList]) 3).2.stores_attr = some 0 ∧
    (register_store ⟨[]⟩ (mkMQTTSource ["a".toList]) 3).1.read 0 = [3] :=
  claim10_lazy_init ⟨[]⟩ ["a".toList] behNone "/a/b".toList "1".toList
    "a".toList "b".toList 3 (by decide) (by decide)

end Forwarder
